import Mathlib

/-!
# WsIface — channel multiplexing and topic-dispatch engine, shallow embedding

This file embeds, in Lean 4, the core logic of the `wsiface` library:
the topic listener registry, the message handlers (server `Channel.msgHandler`
in `src/index.js` and the browser clients in `src/assets/wsiface.js` and the
unnamed client iteration), `Channel.broadcast`, `Channel.eachClient`,
connection-identifier generation (`genStr`) and client `send`.

Conventions of the embedding:
* JavaScript values that can sit in a message field are modelled by `JsVal`
  (string, number, boolean, null); an absent field is `Option.none`
  (JS `undefined`).  JS truthiness of `!msg.topic` is `topicTruthy`.
* A JS object used as a map (`this.topics`, `this.clients`) is an association
  list in insertion order: assigning a fresh key appends, assigning an
  existing key updates in place, exactly as JS object key order behaves.
* Listener callbacks are identified by reference; we model each reference
  by a `Nat` identifier.  A dispatch is observed by the ordered list of
  listener identifiers it invokes.
* `JSON.parse` of a raw inbound frame is modelled by `Frame`: a frame either
  fails structured parsing (`Frame.malformed`) or parses to a message
  (`Frame.parsed`).  `JSON.stringify` for outbound traffic is `encodeMsg`.
* A thrown listener exception is modelled by a predicate `throws` on listener
  identifiers; `Array.prototype.forEach` runs each callback in order and a
  throw aborts the iteration and propagates (`runListeners`).
-/

/-- A JavaScript value that can occur in a message field. -/
inductive JsVal where
  | str (s : String)
  | num (n : Int)
  | boolean (b : Bool)
  | null
  deriving DecidableEq, Repr

/-- JS truthiness: `""`, `0`, `false` and `null` are falsy. -/
def JsVal.truthy : JsVal → Bool
  | .str s => s ≠ ""
  | .num n => n ≠ 0
  | .boolean b => b
  | .null => false

/-- JS coercion of a value to a property key (string). -/
def JsVal.toKey : JsVal → String
  | .str s => s
  | .num n => toString n
  | .boolean b => if b then "true" else "false"
  | .null => "null"

/-- JS coercion of a possibly-absent value to a property key:
an absent field reads as `undefined`, whose key coercion is `"undefined"`. -/
def keyOfOpt : Option JsVal → String
  | none => "undefined"
  | some v => v.toKey

/-- Truthiness of `msg.topic` as tested by `if (!msg.topic)`:
an absent field is `undefined`, which is falsy. -/
def topicTruthy : Option JsVal → Bool
  | none => false
  | some v => v.truthy

/-- A parsed inbound/outbound message: the `topic` field, the `target` field
(read by the defective browser-client dispatch in `src/assets/wsiface.js`),
and an opaque remaining payload. -/
structure Msg where
  topic : Option JsVal
  target : Option JsVal := none
  payload : String := ""
  deriving DecidableEq, Repr

/-- `JSON.stringify` for an outbound message, applied identically to every
recipient of a broadcast. Injective on `Msg` up to its fields; the exact
rendering is irrelevant, only that it is one fixed function of the message. -/
def encodeMsg (m : Msg) : String :=
  "\x7btopic:" ++ keyOfOpt m.topic ++ ",target:" ++ keyOfOpt m.target
    ++ "," ++ m.payload ++ "\x7d"

/-- A raw inbound text frame, as seen through `JSON.parse`: it either throws
(`malformed`) or yields a structured message. -/
inductive Frame where
  | malformed (raw : String)
  | parsed (m : Msg)
  deriving DecidableEq, Repr

/-- `JSON.parse` inside the `try`/`catch` of the message handlers. -/
def jsonParse : Frame → Option Msg
  | .malformed _ => none
  | .parsed m => some m

/-- A listener callback, identified by reference. -/
abbrev Listener := Nat

/-- One topic entry: `{ listeners: [...] }` in registration order. -/
structure TopicEntry where
  listeners : List Listener
  deriving DecidableEq, Repr

/-- `this.topics`: a JS object mapping topic name to entry, in insertion
order. -/
abbrev Topics := List (String × TopicEntry)

/-- Property read `this.topics[k]`: first entry with the key, else absent. -/
def findTopic : Topics → String → Option TopicEntry
  | [], _ => none
  | (k', e) :: rest, k => if k' = k then some e else findTopic rest k

/-- Property write `this.topics[k] = e`: update the existing key in place,
or append a fresh key at the end (JS object insertion order). -/
def setTopic : Topics → String → TopicEntry → Topics
  | [], k, e => [(k, e)]
  | (k', e') :: rest, k, e =>
      if k' = k then (k, e) :: rest else (k', e') :: setTopic rest k e

/-- The listener sequence consulted by a dispatch pass for key `k`:
`this.topics[k].listeners` when the entry exists, nothing otherwise. -/
def passListeners (ts : Topics) (k : String) : List Listener :=
  match findTopic ts k with
  | none => []
  | some e => e.listeners

/-- `Channel.on(topic, listener)` of `src/index.js` (the client `on` of
`src/assets/wsiface.js` and the unnamed iterations performs the same registry
update, differing only in return value):
create the entry if absent, then append the listener unless the reference is
already present (`includes` check). -/
def onReg (ts : Topics) (topic : String) (l : Listener) : Topics :=
  let ts1 := match findTopic ts topic with
    | none => setTopic ts topic ⟨[]⟩
    | some _ => ts
  match findTopic ts1 topic with
  | none => ts1
  | some e => if l ∈ e.listeners then ts1
              else setTopic ts1 topic ⟨e.listeners ++ [l]⟩

/-- Property delete `delete this.topics[k]`: remove the entry for the key
(JS objects hold each key once, so removing the first match is removal). -/
def delTopic : Topics → String → Topics
  | [], _ => []
  | (k', e) :: rest, k => if k' = k then rest else (k', e) :: delTopic rest k

/-- `Channel.off(topic, listener)` of `src/index.js`: delete the whole entry
when no listener is given, otherwise filter the reference out. -/
def offReg (ts : Topics) (topic : String) (l : Option Listener) : Topics :=
  match findTopic ts topic with
  | none => ts
  | some e =>
    match l with
    | none => delTopic ts topic
    | some x => setTopic ts topic ⟨e.listeners.filter (fun h => h ≠ x)⟩

/-- Observable outcome of one `msgHandler` call: whether the handler rejected
the frame (`return false` paths), the ordered listener invocations, and
whether an error was logged. -/
structure DispatchOut where
  rejected : Bool
  invoked : List Listener
  errorLogged : Bool
  deriving DecidableEq, Repr

/-- `Channel.msgHandler(msg, ws)` of `src/index.js` (and identically the
browser client `msgHandler` of the unnamed client iteration with the
corrected topic lookup): parse, reject non-JSON and falsy-topic frames with
an error log, else run the `#` wildcard pass then the `msg.topic` pass. -/
def msgHandler (ts : Topics) (f : Frame) : DispatchOut :=
  match jsonParse f with
  | none => ⟨true, [], true⟩
  | some m =>
    if topicTruthy m.topic = false then ⟨true, [], true⟩
    else
      ⟨false,
       passListeners ts "#" ++ passListeners ts (keyOfOpt m.topic),
       false⟩

/-- Outcome of the defective asset-client dispatch: the listeners invoked
before any `TypeError`, and whether a `TypeError` was thrown. -/
structure ClientDispatchOut where
  invoked : List Listener
  threw : Bool
  deriving DecidableEq, Repr

/-- `WsIfaceClient.msgHandler(msg)` of `src/assets/wsiface.js`: after the
wildcard pass, the guard tests `this.topics[msg.topic]` but the dispatch
reads `this.topics[msg.target].listeners` — when no entry exists under the
`target` key (normally `"undefined"`), reading `.listeners` of `undefined`
throws a `TypeError`. -/
def clientMsgHandlerAsset (ts : Topics) (f : Frame) : ClientDispatchOut :=
  match jsonParse f with
  | none => ⟨[], false⟩
  | some m =>
    if topicTruthy m.topic = false then ⟨[], false⟩
    else
      let wl := passListeners ts "#"
      if (findTopic ts (keyOfOpt m.topic)).isSome then
        match findTopic ts (keyOfOpt m.target) with
        | none => ⟨wl, true⟩
        | some e => ⟨wl ++ e.listeners, false⟩
      else ⟨wl, false⟩

/-- `WsIfaceClient.msgHandler(msg)` of the unnamed browser-client iteration
(`part_000`): same validation as the server handler and a topic dispatch that
correctly reads `this.topics[msg.topic]`. -/
def clientMsgHandler (ts : Topics) (f : Frame) : DispatchOut :=
  match jsonParse f with
  | none => ⟨true, [], true⟩
  | some m =>
    if topicTruthy m.topic = false then ⟨true, [], true⟩
    else
      ⟨false,
       passListeners ts "#" ++ passListeners ts (keyOfOpt m.topic),
       false⟩

/-- `Array.prototype.forEach` over a listener sequence when listeners may
throw: each listener runs in order; when one throws, it has run (it appears
in the invoked list) but the iteration aborts and the exception escapes. -/
def runListeners (throws : Listener → Bool) : List Listener → List Listener × Bool
  | [] => ([], false)
  | l :: rest =>
      if throws l then ([l], true)
      else
        let r := runListeners throws rest
        (l :: r.1, r.2)

/-- `Channel.msgHandler` of `src/index.js` with exception semantics: the
wildcard `forEach` runs first; an exception thrown by a wildcard listener
propagates out of `msgHandler`, so the topic pass never starts; an exception
in the topic pass aborts the remaining topic listeners. There is no
`try`/`catch` around listener invocation in the source. The result is the
ordered invocations and whether an exception escaped the handler. -/
def msgHandlerExc (ts : Topics) (throws : Listener → Bool) (f : Frame) :
    List Listener × Bool :=
  match jsonParse f with
  | none => ([], false)
  | some m =>
    if topicTruthy m.topic = false then ([], false)
    else
      let w := runListeners throws (passListeners ts "#")
      if w.2 then w
      else
        let t := runListeners throws (passListeners ts (keyOfOpt m.topic))
        (w.1 ++ t.1, t.2)

/-- A registered connection's transport view: its `readyState`
(`1` is OPEN in the WebSocket constants). -/
structure Conn where
  readyState : Nat
  deriving DecidableEq, Repr

/-- `this.clients`: a JS object mapping connection identifier to socket,
in insertion order. -/
abbrev Clients := List (String × Conn)

/-- Observable outcome of one `eachClient` call: the registry after the
call, the `(id, frame)` sends the action performed, and the identifiers of
the connections the action was applied to, in iteration order. -/
structure EachOut where
  clientsAfter : Clients
  sends : List (String × String)
  appliedTo : List String
  deriving DecidableEq, Repr

/-- `Channel.eachClient(action)` of `src/index.js`:
`Object.values(this.clients).forEach(client => action(client))` — the action
runs on every registered connection regardless of its transport state, and
the registry is not modified. The action is modelled by what it sends on a
given connection (`none` when it sends nothing). -/
def eachClient (cs : Clients) (action : Conn → Option String) : EachOut :=
  ⟨cs,
   cs.filterMap (fun p => (action p.2).map (fun fr => (p.1, fr))),
   cs.map (·.1)⟩

/-- `Channel.eachClient(action)` of the unnamed server iteration
(`part_002`): each registered connection whose `readyState !== 1` is deleted
from the registry, and the action runs only on the others. -/
def eachClientLegacy (cs : Clients) (action : Conn → Option String) : EachOut :=
  ⟨cs.filter (fun p => p.2.readyState == 1),
   cs.filterMap (fun p =>
     if p.2.readyState == 1 then (action p.2).map (fun fr => (p.1, fr))
     else none),
   (cs.filter (fun p => p.2.readyState == 1)).map (·.1)⟩

/-- Observable outcome of one `Channel.broadcast(data)` call: the `(id,
frame)` sends performed and whether the missing-topic error was logged.
(The JS method returns `this` for chaining on every path.) -/
structure BroadcastOut where
  sent : List (String × String)
  errorLogged : Bool
  deriving DecidableEq, Repr

/-- `Channel.broadcast(data)` of `src/index.js`: log an error and send
nothing when `!data.topic`; otherwise run
`eachClient(ws => ws.readyState === 1 && ws.send(JSON.stringify(data)))`. -/
def broadcast (cs : Clients) (data : Msg) : BroadcastOut :=
  if topicTruthy data.topic = false then ⟨[], true⟩
  else
    ⟨(eachClient cs (fun ws =>
        if ws.readyState == 1 then some (encodeMsg data) else none)).sends,
     false⟩

/-- The identifier alphabet `_sym` of `genStr`. -/
def symAlphabet : String := "abcdefghijklmnopqrstuvwxyz1234567890"

/-- The identifier alphabet as a character list; its length is 36. -/
def symList : List Char := symAlphabet.toList

/-- `genStr()` of `src/index.js`: sixteen characters drawn from `_sym` by
sixteen independent draws `Math.floor(Math.random() * 36)`, modelled by a
function giving the draw at each of the sixteen positions (each draw indexes
into the 36-character alphabet, so the fallback of `getD` is never used). -/
def genStr (draws : Fin 16 → Fin 36) : String :=
  ⟨(List.finRange 16).map (fun i => symList.getD (draws i).val 'a')⟩

/-- The identifier-assignment loop of the `Channel` constructor:
`var id = genStr(); while (this.clients[id]) id = genStr();` — the stream of
random draws is `draws`, and the loop terminates at the first draw whose
generated string is not a currently registered identifier (the hypothesis
`h` is that such a draw occurs). -/
def registerId (ids : List String) (draws : Nat → Fin 16 → Fin 36)
    (h : ∃ n, genStr (draws n) ∉ ids) : String :=
  genStr (draws (Nat.find h))

/-- Observable outcome of one client `send` call: the frames handed to
`this.webSocket.send` and whether a send-without-connection error was
reported. -/
structure SendOut where
  framesSent : List String
  errorReported : Bool
  deriving DecidableEq, Repr

/-- `WsIfaceClient.send(topic, data)` of the unnamed browser-client
iteration (`part_000`): stamp `data.topic = topic` and call
`this.webSocket.send(JSON.stringify(data))` unconditionally — the source
performs no connection-state check, so the transport's `readyState` does not
enter the computation and no error is ever reported by `send` itself. -/
def clientSend (wsReadyState : Nat) (topic : String) (data : Msg) : SendOut :=
  let _ := wsReadyState
  let d := { data with topic := some (.str topic) }
  ⟨[encodeMsg d], false⟩

/-- A topic value is rejected exactly like an absent topic field: the
message handler behaves identically to the topic-less message and invokes no
listener, and `broadcast` of a payload carrying it sends nothing and logs
the missing-topic error. -/
def rejectedAsAbsent (ts : Topics) (cs : Clients) (v : JsVal)
    (tgt : Option JsVal) (pl : String) : Prop :=
  msgHandler ts (.parsed ⟨some v, tgt, pl⟩)
      = msgHandler ts (.parsed ⟨none, tgt, pl⟩)
  ∧ (msgHandler ts (.parsed ⟨some v, tgt, pl⟩)).invoked = []
  ∧ broadcast cs ⟨some v, tgt, pl⟩ = ⟨[], true⟩

/-!
## Registry lemmas
-/

theorem findTopic_setTopic_self (ts : Topics) (k : String) (e : TopicEntry) :
    findTopic (setTopic ts k e) k = some e := by
  induction ts with
  | nil => simp [setTopic, findTopic]
  | cons p rest ih =>
    obtain ⟨k', e'⟩ := p
    by_cases hk : k' = k
    · subst hk; simp [setTopic, findTopic]
    · simp [setTopic, hk, findTopic, ih]

theorem findTopic_mem {ts : Topics} {k : String} {e : TopicEntry}
    (h : findTopic ts k = some e) : (k, e) ∈ ts := by
  induction ts with
  | nil => simp [findTopic] at h
  | cons p rest ih =>
    obtain ⟨k', e'⟩ := p
    by_cases hk : k' = k
    · subst hk
      simp [findTopic] at h
      subst h
      exact List.mem_cons_self _ _
    · simp [findTopic, hk] at h
      exact List.mem_cons_of_mem _ (ih h)

theorem passListeners_findTopic {ts : Topics} {k : String} {e : TopicEntry}
    (h : findTopic ts k = some e) : passListeners ts k = e.listeners := by
  simp [passListeners, h]

/-- After a first `on(t, L)` (the reference not yet registered under `t`),
`t`'s listener sequence is the old one with `L` appended. -/
theorem passListeners_onReg {ts : Topics} {t : String} {L : Listener}
    (hL : L ∉ passListeners ts t) :
    passListeners (onReg ts t L) t = passListeners ts t ++ [L] := by
  unfold onReg
  cases hft : findTopic ts t with
  | none =>
    simp [passListeners, hft, findTopic_setTopic_self]
  | some e =>
    have hLe : L ∉ e.listeners := by
      rwa [passListeners_findTopic hft] at hL
    simp [passListeners, hft, hLe, findTopic_setTopic_self]

/-- If a listener reference occurs in the registry only under topic `t`, and
there at most once, then any single dispatch pass invokes it at most once —
and a pass over a key other than `t` never invokes it. -/
theorem count_passListeners_le {ts : Topics} {t : String} {L : Listener}
    (hreg : ∀ p ∈ ts, List.count L p.2.listeners ≤ if p.1 = t then 1 else 0)
    (k : String) :
    List.count L (passListeners ts k) ≤ if k = t then 1 else 0 := by
  unfold passListeners
  cases hft : findTopic ts k with
  | none => simp
  | some e => exact hreg (k, e) (findTopic_mem hft)

/-- C1. The claim asserts the dispatch order (wildcard pass, then topic
pass) for the browser client dispatcher as well as the server one; in
`src/assets/wsiface.js` the topic pass reads `this.topics[msg.target]`
(normally absent) instead of `this.topics[msg.topic]`, so with a listener
registered under topic `"x"` and an inbound frame of topic `"x"`, the asset
client throws a `TypeError` and invokes no listener at all, while the server
handler on the same state invokes listener `5` as the claim describes. -/
theorem asset_client_target_defect :
    clientMsgHandlerAsset [("x", ⟨[5]⟩)]
        (.parsed ⟨some (.str "x"), none, ""⟩) = ⟨[], true⟩
    ∧ findTopic [("x", ⟨[5]⟩)] "x" = some ⟨[5]⟩
    ∧ msgHandler [("x", ⟨[5]⟩)]
        (.parsed ⟨some (.str "x"), none, ""⟩) = ⟨false, [5], false⟩ := by
  refine ⟨?_, ?_, ?_⟩ <;> rfl

/-- C2 counterexample. A message whose own topic is the wildcard string `#`
makes both dispatch passes read the same `#` entry, so its single registered
listener `7` is invoked twice — at-most-once delivery fails for
`m.topic = '#'`. -/
theorem wildcard_topic_double_delivery :
    (msgHandler [("#", ⟨[7]⟩)]
        (.parsed ⟨some (.str "#"), none, ""⟩)).invoked = [7, 7] := by
  rfl

/-- C2 (amended). A listener registered under exactly one topic entry, at
most once, is invoked at most once per dispatched message, provided the
message's topic key is not the wildcard string `#` itself. -/
theorem dispatch_at_most_once (ts : Topics) (t : String) (L : Listener)
    (m : Msg)
    (hreg : ∀ p ∈ ts, List.count L p.2.listeners ≤ if p.1 = t then 1 else 0)
    (hk : keyOfOpt m.topic ≠ "#") :
    List.count L (msgHandler ts (.parsed m)).invoked ≤ 1 := by
  have h1 := count_passListeners_le hreg "#"
  have h2 := count_passListeners_le hreg (keyOfOpt m.topic)
  unfold msgHandler
  simp only [jsonParse]
  cases htr : topicTruthy m.topic with
  | false => simp
  | true =>
    rw [if_neg (by simp : ¬ (true = false))]
    simp only [List.count_append]
    by_cases ht : t = "#"
    · subst ht
      rw [if_pos rfl] at h1
      rw [if_neg hk] at h2
      omega
    · rw [if_neg (fun h => ht h.symm)] at h1
      by_cases hkt : keyOfOpt m.topic = t
      · rw [if_pos hkt] at h2
        omega
      · rw [if_neg hkt] at h2
        omega

/-- C2 witness for the amended theorem: listener `3` is registered once under
topic `"t"`, and a dispatched message on `"t"` invokes it at most once. -/
theorem dispatch_at_most_once_witness :
    List.count 3 (msgHandler [("t", ⟨[3]⟩)]
        (.parsed ⟨some (.str "t"), none, ""⟩)).invoked ≤ 1 :=
  dispatch_at_most_once [("t", ⟨[3]⟩)] "t" 3 ⟨some (.str "t"), none, ""⟩
    (by decide) (by decide)

/-- C3. There is no `try`/`catch` around listener invocation in
`Channel.msgHandler`: with listeners `1` and `2` registered under topic `"t"`
in that order and listener `1` throwing, the dispatch invokes only `1`, the
exception escapes the handler, and listener `2` is never invoked — contrary
to the isolation the claim requires. -/
theorem listener_throw_aborts_dispatch :
    msgHandlerExc [("t", ⟨[1, 2]⟩)] (fun l => l == 1)
        (.parsed ⟨some (.str "t"), none, ""⟩) = ([1], true)
    ∧ (2 : Listener) ∉ (msgHandlerExc [("t", ⟨[1, 2]⟩)] (fun l => l == 1)
        (.parsed ⟨some (.str "t"), none, ""⟩)).1 := by
  exact ⟨rfl, by decide⟩

/-- C4. A frame that fails structured parsing, or parses to a message with
no `topic` field, is rejected by both the server message handler and the
browser-client message handler: the handler returns `false` after logging an
error, and no listener is invoked. -/
theorem reject_before_dispatch (ts : Topics) (f : Frame)
    (h : ∀ m, jsonParse f = some m → m.topic = none) :
    msgHandler ts f = ⟨true, [], true⟩
    ∧ clientMsgHandler ts f = ⟨true, [], true⟩ := by
  cases f with
  | malformed raw => exact ⟨rfl, rfl⟩
  | parsed m =>
    have hm : m.topic = none := h m rfl
    constructor <;> simp [msgHandler, clientMsgHandler, jsonParse, hm,
                          topicTruthy]

/-- C4 witness: the literal frame `not json` and a topic-less parsed message
are both rejected with no listener invoked, on a nonempty registry. -/
theorem reject_before_dispatch_witness :
    msgHandler [("t", ⟨[1]⟩)] (.malformed "not json") = ⟨true, [], true⟩
    ∧ clientMsgHandler [("t", ⟨[1]⟩)] (.malformed "not json")
        = ⟨true, [], true⟩ :=
  reject_before_dispatch [("t", ⟨[1]⟩)] (.malformed "not json")
    (by intro m hm; simp [jsonParse] at hm)

/-- C5. `broadcast(data)` logs the missing-topic error exactly when
`data.topic` is falsy, and a `(connection, frame)` send happens exactly for
the open connections (`readyState === 1`), each receiving the one encoding
of `data`; rejected broadcasts and non-open connections receive nothing. -/
theorem broadcast_frames (cs : Clients) (d : Msg) :
    ((broadcast cs d).errorLogged = true ↔ topicTruthy d.topic = false)
    ∧ ∀ q : String × String, q ∈ (broadcast cs d).sent ↔
        (topicTruthy d.topic = true ∧ q.2 = encodeMsg d
          ∧ ∃ c : Conn, (q.1, c) ∈ cs ∧ c.readyState = 1) := by
  unfold broadcast
  cases htr : topicTruthy d.topic with
  | false => simp
  | true =>
    rw [if_neg (by simp : ¬ (true = false))]
    refine ⟨by simp, fun q => ?_⟩
    simp only [eachClient, List.mem_filterMap, true_and]
    constructor
    · rintro ⟨p, hp, hfp⟩
      by_cases hrs : p.2.readyState == 1
      · rw [if_pos hrs] at hfp
        simp only [Option.map_some'] at hfp
        obtain rfl : (p.1, encodeMsg d) = q := Option.some.inj hfp
        exact ⟨rfl, p.2, by simpa using hp, by simpa using hrs⟩
      · rw [if_neg hrs] at hfp
        simp at hfp
    · rintro ⟨hq2, c, hc, hrs⟩
      refine ⟨(q.1, c), hc, ?_⟩
      rw [if_pos (by simpa using hrs)]
      simp only [Option.map_some']
      rw [← hq2]

/-- C5 witness: one open and one closed connection; the open one receives
the encoded payload. -/
theorem broadcast_frames_witness :
    ("a", encodeMsg ⟨some (.str "x"), none, "n:1"⟩)
      ∈ (broadcast [("a", ⟨1⟩), ("b", ⟨3⟩)]
          ⟨some (.str "x"), none, "n:1"⟩).sent :=
  ((broadcast_frames [("a", ⟨1⟩), ("b", ⟨3⟩)]
      ⟨some (.str "x"), none, "n:1"⟩).2
    ("a", encodeMsg ⟨some (.str "x"), none, "n:1"⟩)).mpr
    ⟨by decide, rfl, ⟨1⟩, by decide, rfl⟩

/-- C6 counterexample. In `src/index.js`, `eachClient` neither skips nor
evicts a connection whose transport is not open: with a single CLOSED
connection (`readyState 3`), the action is still applied to it and it is
still registered afterwards, where the claim requires the registry to
contain only open connections after the iteration. -/
theorem eachClient_keeps_dead :
    (eachClient [("a", ⟨3⟩)]
        (fun ws => if ws.readyState == 1 then some "f" else none)).clientsAfter
      = [("a", ⟨3⟩)]
    ∧ (Conn.mk 3).readyState ≠ 1
    ∧ (eachClient [("a", ⟨3⟩)]
        (fun ws => if ws.readyState == 1 then some "f" else none)).appliedTo
      = ["a"] :=
  ⟨rfl, by decide, rfl⟩

/-- C6 (amended). The `eachClient` of `src/index.js` applies the action to
every registered connection regardless of transport state and leaves the
registry unchanged (no pruning); the lazy eviction the claim describes is
the behavior of the earlier `part_002` iteration of `eachClient`, whose
resulting registry consists exactly of the open connections. -/
theorem eachClient_registry (cs : Clients) (action : Conn → Option String) :
    (eachClient cs action).clientsAfter = cs
    ∧ (eachClient cs action).appliedTo = cs.map (·.1)
    ∧ (∀ p ∈ (eachClientLegacy cs action).clientsAfter, p.2.readyState = 1)
    ∧ (∀ p ∈ cs, p.2.readyState = 1 →
        p ∈ (eachClientLegacy cs action).clientsAfter) := by
  refine ⟨rfl, rfl, ?_, ?_⟩
  · intro p hp
    have := (List.mem_filter.mp hp).2
    simpa using this
  · intro p hp hrs
    exact List.mem_filter.mpr ⟨hp, by simpa using hrs⟩

/-- C6 witness for the amended theorem: the legacy iteration keeps the open
connection. -/
theorem eachClient_registry_witness :
    ("b", Conn.mk 1)
      ∈ (eachClientLegacy [("a", ⟨3⟩), ("b", ⟨1⟩)]
          (fun _ => none)).clientsAfter :=
  (eachClient_registry [("a", ⟨3⟩), ("b", ⟨1⟩)] (fun _ => none)).2.2.2
    ("b", ⟨1⟩) (by decide) rfl

/-- C7. First registration of a fresh listener reference under topic `t`
leaves exactly one occurrence of it in `t`'s sequence; a further identical
`on(t, L)` call leaves the registry unchanged; and a dispatched message on
`t` runs the wildcard pass followed by `t`'s pass, whose sequence holds `L`
exactly once. -/
theorem on_idempotent (ts : Topics) (t : String) (L : Listener)
    (hL : L ∉ passListeners ts t) (ht : t ≠ "") :
    List.count L (passListeners (onReg ts t L) t) = 1
    ∧ onReg (onReg ts t L) t L = onReg ts t L
    ∧ (msgHandler (onReg ts t L) (.parsed ⟨some (.str t), none, ""⟩)).invoked
        = passListeners (onReg ts t L) "#"
          ++ passListeners (onReg ts t L) t := by
  have hpl := passListeners_onReg hL
  have hcount : List.count L (passListeners (onReg ts t L) t) = 1 := by
    rw [hpl, List.count_append, List.count_eq_zero.mpr hL]
    simp
  refine ⟨hcount, ?_, ?_⟩
  · have hmem : L ∈ passListeners (onReg ts t L) t := by
      rw [hpl]
      exact List.mem_append_right _ (List.mem_singleton_self L)
    set ts' := onReg ts t L with hts'
    unfold onReg
    cases hft : findTopic ts' t with
    | none =>
      simp only [passListeners, hft] at hmem
      exact absurd hmem (List.not_mem_nil L)
    | some e =>
      have hLe : L ∈ e.listeners := by
        rwa [passListeners_findTopic hft] at hmem
      simp [hft, hLe]
  · have htr : topicTruthy (some (.str t)) = true := by
      simp [topicTruthy, JsVal.truthy, ht]
    unfold msgHandler
    simp [jsonParse, htr, keyOfOpt, JsVal.toKey]

/-- C7 witness: registering listener `4` under `"t"` in an empty registry. -/
theorem on_idempotent_witness :
    List.count 4 (passListeners (onReg [] "t" 4) "t") = 1
    ∧ onReg (onReg [] "t" 4) "t" 4 = onReg [] "t" 4 :=
  ⟨(on_idempotent [] "t" 4 (by decide) (by decide)).1,
   (on_idempotent [] "t" 4 (by decide) (by decide)).2.1⟩

/-- C8. The identifier the registration loop assigns is 16 characters over
the lowercase-alphanumeric alphabet, differs from every currently registered
identifier, and therefore keeps the channel's identifiers pairwise
distinct. -/
theorem registerId_fresh (ids : List String) (draws : Nat → Fin 16 → Fin 36)
    (h : ∃ n, genStr (draws n) ∉ ids) :
    (registerId ids draws h).length = 16
    ∧ (∀ c ∈ (registerId ids draws h).data, c ∈ symList)
    ∧ registerId ids draws h ∉ ids
    ∧ (ids.Nodup → (registerId ids draws h :: ids).Nodup) := by
  have hfresh : genStr (draws (Nat.find h)) ∉ ids := Nat.find_spec h
  refine ⟨?_, ?_, hfresh, fun hnd => List.nodup_cons.mpr ⟨hfresh, hnd⟩⟩
  · show (genStr (draws (Nat.find h))).length = 16
    unfold genStr
    simp [String.length]
  · intro c hc
    have hc' : c ∈ (List.finRange 16).map
        (fun i => symList.getD ((draws (Nat.find h)) i).val 'a') := hc
    rw [List.mem_map] at hc'
    obtain ⟨i, _, rfl⟩ := hc'
    have h36 : symList.length = 36 := by decide
    have hlt : ((draws (Nat.find h)) i).val < symList.length := by
      have := ((draws (Nat.find h)) i).isLt
      omega
    rw [List.getD_eq_getElem _ _ hlt]
    exact List.getElem_mem _

/-- C8 witness: a degenerate random stream whose first candidate is fresh
for the registered set `["x"]`. -/
theorem registerId_fresh_witness :
    registerId ["x"] (fun _ _ => (0 : Fin 36)) ⟨0, by decide⟩ ∉ ["x"]
    ∧ (registerId ["x"] (fun _ _ => (0 : Fin 36)) ⟨0, by decide⟩).length
        = 16 :=
  ⟨(registerId_fresh ["x"] (fun _ _ => (0 : Fin 36)) ⟨0, by decide⟩).2.2.1,
   (registerId_fresh ["x"] (fun _ _ => (0 : Fin 36)) ⟨0, by decide⟩).1⟩

/-- C9 counterexample. With the transport CLOSED (`readyState` 3, so no
active connection exists), `send` still hands the encoded frame to
`webSocket.send` and reports no error: the claimed rejection with a
send-without-connection error does not exist in the source. -/
theorem send_without_connection_not_rejected :
    clientSend 3 "t" ⟨none, none, ""⟩
      = ⟨[encodeMsg ⟨some (.str "t"), none, ""⟩], false⟩
    ∧ (clientSend 3 "t" ⟨none, none, ""⟩).framesSent ≠ []
    ∧ (clientSend 3 "t" ⟨none, none, ""⟩).errorReported = false :=
  ⟨rfl, by decide, rfl⟩

/-- C9 (amended). For every transport state, `send(topic, data)` stamps
`data.topic = topic` and transmits exactly the one encoded frame, reporting
no error: the source performs no connection-state check. -/
theorem clientSend_stamps_topic (rs : Nat) (topic : String) (data : Msg) :
    clientSend rs topic data
      = ⟨[encodeMsg { data with topic := some (.str topic) }], false⟩ := rfl

/-- C10. Each falsy topic value — the empty string, the number `0`, the
boolean `false`, and `null` — is rejected by the message handler exactly as
an absent topic field is (no listener invoked), and `broadcast` of a payload
carrying it is likewise rejected: the `!msg.topic` / `!data.topic` guards
test truthiness, not field existence. -/
theorem falsy_topic_rejected (ts : Topics) (cs : Clients)
    (tgt : Option JsVal) (pl : String) :
    rejectedAsAbsent ts cs (.str "") tgt pl
    ∧ rejectedAsAbsent ts cs (.num 0) tgt pl
    ∧ rejectedAsAbsent ts cs (.boolean false) tgt pl
    ∧ rejectedAsAbsent ts cs .null tgt pl :=
  ⟨⟨rfl, rfl, rfl⟩, ⟨rfl, rfl, rfl⟩, ⟨rfl, rfl, rfl⟩, ⟨rfl, rfl, rfl⟩⟩
